import Mathlib

/-!
Shallow embedding of `gql_generator.py`: a generator that walks an in-memory
GraphQL schema and renders fragment / query / mutation documents from
string templates.

Machine model notes.
* GraphQL type descriptors (`GraphQLScalarType`, `GraphQLObjectType`,
  `GraphQLList`, `GraphQLNonNull`, and graphene's `GrapheneObjectType`
  subclass of `GraphQLObjectType`) become the tagged variant `GQLType`;
  the `graphene` flag on the object variant records whether the runtime
  class is the graphene subclass.
* Python's `re` module is an external collaborator; it is modelled by the
  `ReModule` record (whether a pattern compiles, and whether `re.match`
  finds a match at position 0).  `re.match` on a pattern that does not
  compile raises `re.error`; fallible paths return `Except String`.
* An argument's `default_value` is `Undefined` when absent; the embedding
  stores `Option String` (the rendered literal), `none` for an absent or
  falsy default, matching the `if scalar.default_value:` truthiness test.
-/

namespace GqlGen

mutual

inductive GQLType : Type where
  | scalar (name : String)
  | objectType (graphene : Bool) (name : String) (fields : List (String × GQLField))
  | listOf (of_type : GQLType)
  | nonNull (of_type : GQLType)

inductive GQLField : Type where
  | mk (type : GQLType) (args : List (String × GQLArgument))

inductive GQLArgument : Type where
  | mk (type : GQLType) (default_value : Option String)

end

def GQLField.type : GQLField → GQLType
  | .mk t _ => t

def GQLField.args : GQLField → List (String × GQLArgument)
  | .mk _ a => a

def GQLArgument.type : GQLArgument → GQLType
  | .mk t _ => t

def GQLArgument.default_value : GQLArgument → Option String
  | .mk _ d => d

/-- The `isinstance(·, GraphQLScalarType)` test. -/
def isScalar : GQLType → Bool
  | .scalar _ => true
  | _ => false

/-- The `isinstance(·, GrapheneObjectType)` test (graphene's subclass). -/
def isGrapheneObject : GQLType → Bool
  | .objectType graphene _ _ => graphene
  | _ => false

/-- The `isinstance(·, GraphQLObjectType)` test (any object type). -/
def isGraphQLObject : GQLType → Bool
  | .objectType _ _ _ => true
  | _ => false

/-- The `isinstance(·, GraphQLNonNull)` test. -/
def isNonNull : GQLType → Bool
  | .nonNull _ => true
  | _ => false

/-- Reading the `.name` attribute; wrapper types have none (AttributeError). -/
def typeName : GQLType → Option String
  | .scalar n => some n
  | .objectType _ n _ => some n
  | .listOf _ => none
  | .nonNull _ => none

/-- Reading the `.of_type` attribute; only wrapper types have it. -/
def ofType : GQLType → Option GQLType
  | .listOf t => some t
  | .nonNull t => some t
  | .scalar _ => none
  | .objectType _ _ _ => none

/-- The already-materialized schema snapshot: `get_type_map()`,
`get_query_type().fields`, `get_mutation_type().fields`. -/
structure Schema : Type where
  type_map : List (String × GQLType)
  query_fields : List (String × GQLField)
  mutation_fields : List (String × GQLField)

/-- Model of Python's `re` module: whether a pattern string compiles, and
whether `re.match(pattern, s)` finds a match anchored at the start. -/
structure ReModule : Type where
  compileOk : String → Bool
  matchFound : String → String → Bool

/-- The call `re.match(pattern, s)`: raises `re.error` when the pattern
does not compile, otherwise reports whether a match was found. -/
def matchM (re : ReModule) (pattern s : String) : Except String Bool :=
  if re.compileOk pattern then Except.ok (re.matchFound pattern s)
  else Except.error "re.error: invalid pattern"

/-- The guard `if self.<kind>_exclude_pattern and re.match(pattern, name):`
— an empty (falsy) pattern short-circuits before `re.match` is called. -/
def exclude_check (re : ReModule) (pattern name : String) : Except String Bool :=
  if pattern = "" then Except.ok false
  else matchM re pattern name

/-- Characters strictly before the first occurrence of `"Type"`, or `none`
when `"Type"` does not occur. -/
def beforeTypeOcc : List Char → Option (List Char)
  | [] => none
  | c :: cs =>
      if ("Type".data).isPrefixOf (c :: cs) then some []
      else
        match beforeTypeOcc cs with
        | some l => some (c :: l)
        | none => none

/-- Model of `re.sub('Type.*', 'Field', s)` (the class-default
`fragment_name_replace` pair) on a newline-free type name: everything from
the first occurrence of `"Type"` to the end is replaced by `"Field"`. -/
def subTypeField (s : String) : String :=
  match beforeTypeOcc s.data with
  | some pre => String.mk pre ++ "Field"
  | none => s

/-- Class attribute `fragment_exclude`. -/
def fragment_exclude_default : List String :=
  ["Query", ".+TypeConnection$", ".+TypeEdge$", ".+Payload$", "Mutation",
   "DjangoDebugSQL"]

/-- Class attribute `query_exclude`. -/
def query_exclude_default : List String := ["_debug"]

/-- Class attribute `mutation_exclude`. -/
def mutation_exclude_default : List String := ["_debug"]

/-- Class attribute `fragment_name_replace = ('Type.*', 'Field')`, stored as
the compiled substitution it denotes; `none` models a falsy attribute. -/
def fragment_name_replace_default : Option (String → String) :=
  some subTypeField

/-- Generator state after `__init__`: the stored schema snapshot, the
naming transform, and the three joined exclusion pattern strings. -/
structure GQLGenerator : Type where
  schema : Schema
  fragment_name_replace : Option (String → String)
  _fragment_exclude_pattern : String
  _query_exclude_pattern : String
  _mutation_exclude_pattern : String

/-- The constructor `GQLGenerator.__init__`: stores the schema and joins
each exclusion list with `'|'`.  No pattern is compiled here; the body
contains no failing operation, so construction always succeeds. -/
def GQLGenerator.init (fragment_exclude : List String)
    (fragment_name_replace : Option (String → String))
    (query_exclude mutation_exclude : List String)
    (schema : Schema) : Except String GQLGenerator :=
  Except.ok
    { schema := schema
      fragment_name_replace := fragment_name_replace
      _fragment_exclude_pattern := String.intercalate "|" fragment_exclude
      _query_exclude_pattern := String.intercalate "|" query_exclude
      _mutation_exclude_pattern := String.intercalate "|" mutation_exclude }

/-- The branch `fragment = re.sub(*self.fragment_name_replace, string=name)
if self.fragment_name_replace else name`, over the stored transform. -/
def apply_name_replace (fnr : Option (String → String)) (name : String) :
    String :=
  match fnr with
  | some f => f name
  | none => name

/-- The same branch, reading the transform off the generator instance. -/
def apply_fragment_name_replace (g : GQLGenerator) (name : String) : String :=
  apply_name_replace g.fragment_name_replace name

/-- `_scalar_type_to_gql`: renders a type reference, recursing through
non-null and list wrappers. -/
def scalar_type_to_gql : GQLType → String
  | .nonNull t => scalar_type_to_gql t ++ "!"
  | .listOf t => "[" ++ scalar_type_to_gql t ++ "]"
  | .scalar n => n
  | .objectType _ n _ => n

/-- `_arguments_to_name_and_scalar_type`: pairs each argument name with its
rendered type, appending ` = <default>` for a (truthy) default value. -/
def arguments_to_name_and_scalar_type (args : List (String × GQLArgument)) :
    List (String × String) :=
  args.map fun p =>
    (p.1,
      match p.2.default_value with
      | some v => scalar_type_to_gql p.2.type ++ " = " ++ v
      | none => scalar_type_to_gql p.2.type)

/-- The variable-list loop `append(f'${arg_name}: {arg_type}')`. -/
def field_variables (args : List (String × GQLArgument)) : List String :=
  (arguments_to_name_and_scalar_type args).map fun p =>
    "$" ++ p.1 ++ ": " ++ p.2

/-- The `arguments.append(f'{arg_name}: ${arg_name}')` loop. -/
def field_arguments (args : List (String × GQLArgument)) : List String :=
  (arguments_to_name_and_scalar_type args).map fun p =>
    p.1 ++ ": $" ++ p.1

/-- `FRAGMENT_TEMPLATE.substitute(...)`. -/
def FRAGMENT_TEMPLATE (fragment tname fields : String) : String :=
  "\nfragment " ++ fragment ++ " on " ++ tname ++ " \x7b\n    " ++ fields ++
    "\n\x7d\n"

/-- `QUERY_TEMPLATE.substitute(...)` (bare call, arguments only). -/
def QUERY_TEMPLATE (operation_name vbls query_name arguments : String) :
    String :=
  "\nquery " ++ operation_name ++ "(" ++ vbls ++ ") \x7b\n    " ++
    query_name ++ "(" ++ arguments ++ ")\n\x7d\n"

/-- `QUERY_TEMPLATE_SINGLE.substitute(...)` (one fragment spread). -/
def QUERY_TEMPLATE_SINGLE
    (operation_name vbls query_name arguments fragment : String) :
    String :=
  "\nquery " ++ operation_name ++ "(" ++ vbls ++ ") \x7b\n    " ++
    query_name ++ "(" ++ arguments ++ ") \x7b\n        ..." ++ fragment ++
    "\n    \x7d\n\x7d\n"

/-- `QUERY_TEMPLATE_PAGINATION.substitute(...)` (connection shape). -/
def QUERY_TEMPLATE_PAGINATION
    (operation_name vbls query_name arguments fragment : String) :
    String :=
  "\nquery " ++ operation_name ++ "(\n    " ++ vbls ++ "\n) \x7b\n    " ++
    query_name ++ "(\n    " ++ arguments ++
    "\n) \x7b\n        __typename\n        totalCount\n        edgeCount\n        pageInfo \x7b\n            ...PageInfoField\n        \x7d\n        edges \x7b\n            __typename\n            cursor\n            node \x7b\n                ..." ++
    fragment ++
    "\n            \x7d\n        \x7d\n    \x7d  \n\x7d\n"

/-- `MUTATION_TEMPLATE.substitute(...)`. -/
def MUTATION_TEMPLATE
    (operation_name vbls mutation_name arguments fields : String) :
    String :=
  "\nmutation " ++ operation_name ++ "(" ++ vbls ++ ") \x7b\n    " ++
    mutation_name ++ "(" ++ arguments ++ ") \x7b\n        " ++ fields ++
    "\n    \x7d\n\x7d\n"

/-- One iteration of the `get_fragments` loop: `none` when the type is
skipped, `some text` when a fragment block is rendered. -/
def get_fragment_block (re : ReModule) (g : GQLGenerator) (name : String)
    (instance_ : GQLType) : Except String (Option String) := do
  let excluded ← exclude_check re g._fragment_exclude_pattern name
  if excluded then return none
  match instance_ with
  | .objectType true _ fields =>
      return some (FRAGMENT_TEMPLATE (apply_fragment_name_replace g name)
        name (String.intercalate "\n" (fields.map fun p => p.1)))
  | _ => return none

def get_fragments_aux (re : ReModule) (g : GQLGenerator) :
    List (String × GQLType) → Except String (List String)
  | [] => Except.ok []
  | (name, inst) :: rest => do
      let block ← get_fragment_block re g name inst
      let tail ← get_fragments_aux re g rest
      match block with
      | some s => return s :: tail
      | none => return tail

/-- `get_fragments`: walks `self.schema.get_type_map()`. -/
def get_fragments (re : ReModule) (g : GQLGenerator) :
    Except String (List String) :=
  get_fragments_aux re g g.schema.type_map

/-- One iteration of the `get_queries` loop over the root query fields. -/
def get_query_block (re : ReModule) (g : GQLGenerator) (name : String)
    (field : GQLField) : Except String (Option String) := do
  let excluded ← exclude_check re g._query_exclude_pattern name
  if excluded then return none
  if isScalar field.type then return none
  let field_type ←
    if isGrapheneObject field.type then pure field.type
    else
      match ofType field.type with
      | some t => pure t
      | none => Except.error "AttributeError: of_type"
  let vbls := String.intercalate "\n" (field_variables field.args)
  let arguments := String.intercalate "\n" (field_arguments field.args)
  if isNonNull field_type then
    return some (QUERY_TEMPLATE name vbls name arguments)
  else
    let tn ←
      match typeName field_type with
      | some n => pure n
      | none => Except.error "AttributeError: name"
    let fragment := apply_fragment_name_replace g tn
    if field.args.any (fun a => a.1 == "page") then
      return some (QUERY_TEMPLATE_PAGINATION name vbls name arguments
        fragment)
    else
      return some (QUERY_TEMPLATE_SINGLE name vbls name arguments
        fragment)

def get_queries_aux (re : ReModule) (g : GQLGenerator) :
    List (String × GQLField) → Except String (List String)
  | [] => Except.ok []
  | (name, field) :: rest => do
      let block ← get_query_block re g name field
      let tail ← get_queries_aux re g rest
      match block with
      | some s => return s :: tail
      | none => return tail

/-- `get_queries`: walks `self.schema.get_query_type().fields`. -/
def get_queries (re : ReModule) (g : GQLGenerator) :
    Except String (List String) :=
  get_queries_aux re g g.schema.query_fields

/-- `_mutation_field_fragment`: resolves a payload field type to a fragment
name; `ErrorType` is special-cased, lists recurse into their element, and
non-null (or scalar) types yield no fragment.  The method reads only
`self.fragment_name_replace`, made explicit as the `fnr` parameter. -/
def mutation_field_fragment_core (fnr : Option (String → String)) :
    GQLType → Option String
  | .objectType _ n _ =>
      if n = "ErrorType" then some "ErrorTypeField"
      else some (apply_name_replace fnr n)
  | .listOf t => mutation_field_fragment_core fnr t
  | .nonNull _ => none
  | .scalar _ => none

/-- `_mutation_field_fragment` as a method of the instance. -/
def mutation_field_fragment (g : GQLGenerator) : GQLType → Option String :=
  mutation_field_fragment_core g.fragment_name_replace

/-- Python's `str.startswith`. -/
def pyStartswith (s pre : String) : Bool :=
  pre.data.isPrefixOf s.data

/-- One tuple yielded by `_mutation_fields` for a payload field: a nested
block when a (truthy) fragment resolves, a bare name otherwise. -/
def mutation_field_tokens (fnr : Option (String → String)) (name : String)
    (field : GQLField) : List String :=
  match mutation_field_fragment_core fnr field.type with
  | some fragment =>
      if fragment = "" then [name]
      else [name ++ " \x7b", "..." ++ fragment, "\x7d"]
  | none => [name]

/-- `_mutation_fields` over a payload's field map (the yielded tuples). -/
def mutation_fields_tokens (fnr : Option (String → String))
    (fields : List (String × GQLField)) : List (List String) :=
  fields.map fun p => mutation_field_tokens fnr p.1 p.2

/-- The flattening comprehension in `get_mutations`: every token from every
tuple, dropping tokens that start with an underscore. -/
def mutation_selected_fields_core (fnr : Option (String → String))
    (fields : List (String × GQLField)) : List String :=
  (mutation_fields_tokens fnr fields).flatten.filter
    fun t => !(pyStartswith t "_")

/-- The selected payload tokens, reading the transform off the instance. -/
def mutation_selected_fields (g : GQLGenerator)
    (fields : List (String × GQLField)) : List String :=
  mutation_selected_fields_core g.fragment_name_replace fields

/-- One iteration of the `get_mutations` loop over root mutation fields.
The loop body reads only `self.fragment_name_replace` (via
`_mutation_fields`) and `self.mutation_exclude_pattern`, made explicit as
the `fnr` and `pattern` parameters. -/
def get_mutation_block_core (re : ReModule) (fnr : Option (String → String))
    (pattern name : String) (field : GQLField) :
    Except String (Option String) := do
  let excluded ← exclude_check re pattern name
  if excluded then return none
  match field.type with
  | .objectType true _ payload_fields =>
      let vbls := String.intercalate ", " (field_variables field.args)
      let arguments := String.intercalate ", " (field_arguments field.args)
      let fields := String.intercalate "\n"
        (mutation_selected_fields_core fnr payload_fields)
      return some (MUTATION_TEMPLATE name vbls name arguments fields)
  | _ => return none

/-- One iteration of the `get_mutations` loop, as a method. -/
def get_mutation_block (re : ReModule) (g : GQLGenerator) (name : String)
    (field : GQLField) : Except String (Option String) :=
  get_mutation_block_core re g.fragment_name_replace
    g._mutation_exclude_pattern name field

def get_mutations_core (re : ReModule) (fnr : Option (String → String))
    (pattern : String) :
    List (String × GQLField) → Except String (List String)
  | [] => Except.ok []
  | (name, field) :: rest => do
      let block ← get_mutation_block_core re fnr pattern name field
      let tail ← get_mutations_core re fnr pattern rest
      match block with
      | some s => return s :: tail
      | none => return tail

/-- `get_mutations`: note the source reads the module-level global
`schema` (`root = schema.get_mutation_type()`), not `self.schema`; the
global snapshot is therefore an explicit second input here. -/
def get_mutations (re : ReModule) (g : GQLGenerator)
    (globalSchema : Schema) : Except String (List String) :=
  get_mutations_core re g.fragment_name_replace g._mutation_exclude_pattern
    globalSchema.mutation_fields

/-! Auditing definitions over rendered tokens. -/

/-- A string containing neither an opening nor a closing brace. -/
def braceFreeB (s : String) : Bool :=
  s.data.all fun c => !(c == '\x7b' || c == '\x7d')

/-- Occurrences of a character in a string. -/
def charCount (c : Char) (s : String) : Nat :=
  s.data.count c

/-- Opening braces minus closing braces across a token list: `0` for a
brace-balanced selection block. -/
def braceDelta (tokens : List String) : Int :=
  (tokens.map fun t =>
    (charCount '\x7b' t : Int) - (charCount '\x7d' t : Int)).sum

/-- Whether the fragment (if any) that `_mutation_field_fragment` resolves
for a payload field is brace-free. -/
def fragBraceFree (fnr : Option (String → String)) (f : GQLField) : Bool :=
  match mutation_field_fragment_core fnr f.type with
  | some fr => braceFreeB fr
  | none => true

/-- The per-entry result of the `get_fragments` loop once the exclusion
pattern is known to evaluate without error: `none` for a skipped entry,
`some text` for a rendered fragment. -/
def fragStep (re : ReModule) (g : GQLGenerator) :
    String × GQLType → Option String
  | (name, inst) =>
      if (if g._fragment_exclude_pattern = "" then false
          else re.matchFound g._fragment_exclude_pattern name) then none
      else
        match inst with
        | .objectType true _ fields =>
            some (FRAGMENT_TEMPLATE (apply_fragment_name_replace g name) name
              (String.intercalate "\n" (fields.map fun q => q.1)))
        | _ => none

/-- The rendered text `s` contains `pat` as a contiguous substring. -/
def textContains (s pat : String) : Prop :=
  pat.data <:+: s.data

/-! Concrete fixtures used by witnesses and counterexamples. -/

/-- Regex stub: every pattern compiles, no name ever matches. -/
def reNone : ReModule := ReModule.mk (fun _ => true) (fun _ _ => false)

/-- Regex stub under which the pattern `"("` does not compile. -/
def reBad : ReModule := ReModule.mk (fun p => p != "(") (fun _ _ => false)

/-- An empty schema snapshot. -/
def sEmpty : Schema := Schema.mk [] [] []

/-- A snapshot whose type map holds one plain object type. -/
def sOneType : Schema :=
  Schema.mk
    [("UserType",
      GQLType.objectType true "UserType"
        [("id", GQLField.mk (GQLType.scalar "ID") []),
         ("name", GQLField.mk (GQLType.scalar "String") [])])]
    [] []

/-- A snapshot with one root mutation field. -/
def sMutOne : Schema :=
  Schema.mk [] []
    [("createUser",
      GQLField.mk
        (GQLType.objectType true "CreateUserPayload"
          [("ok", GQLField.mk (GQLType.scalar "Boolean") [])])
        [])]

/-- A generator built over `sEmpty` with the class-default configuration. -/
def gFix : GQLGenerator :=
  GQLGenerator.mk sEmpty fragment_name_replace_default
    (String.intercalate "|" fragment_exclude_default) "_debug" "_debug"

/-- A mutation payload field map with one underscore-prefixed field whose
type resolves to a fragment, and one plain scalar field. -/
def payloadFix : List (String × GQLField) :=
  [("_internal", GQLField.mk (GQLType.objectType true "ErrorType" []) []),
   ("ok", GQLField.mk (GQLType.scalar "Boolean") [])]

/-- A generator whose stored schema is `sOneType`, default configuration. -/
def gOne : GQLGenerator :=
  GQLGenerator.mk sOneType fragment_name_replace_default
    (String.intercalate "|" fragment_exclude_default) "_debug" "_debug"

/-! Claim theorems. -/

/-- C1 (corrected): the query builder skips a field only when its result is
a bare scalar; a non-null-wrapped scalar result still emits a query block
(rendered with the single-fragment or pagination template, the fragment
name derived from the scalar's name). -/
theorem gql_c1_scalar_skip (re : ReModule) (g : GQLGenerator) (n : String)
    (f : GQLField) (s : String)
    (hexcl : exclude_check re g._query_exclude_pattern n = Except.ok false) :
    (isScalar f.type = true → get_query_block re g n f = Except.ok none) ∧
    (f.type = GQLType.nonNull (GQLType.scalar s) →
      get_query_block re g n f =
        Except.ok (some
          (if f.args.any (fun a => a.1 == "page") then
            QUERY_TEMPLATE_PAGINATION n
              (String.intercalate "\n" (field_variables f.args)) n
              (String.intercalate "\n" (field_arguments f.args))
              (apply_fragment_name_replace g s)
          else
            QUERY_TEMPLATE_SINGLE n
              (String.intercalate "\n" (field_variables f.args)) n
              (String.intercalate "\n" (field_arguments f.args))
              (apply_fragment_name_replace g s)))) := by
  constructor
  · intro hs
    simp [get_query_block, hexcl, hs]
  · intro ht
    cases hpage : f.args.any (fun a => a.1 == "page") <;>
      · simp only [get_query_block, hexcl, ht, hpage]
        rfl

/-- C1 witness: a bare-scalar root query field emits nothing. -/
theorem gql_c1_witness :
    get_query_block reNone gFix "version"
      (GQLField.mk (GQLType.scalar "String") []) = Except.ok none :=
  (gql_c1_scalar_skip reNone gFix "version"
    (GQLField.mk (GQLType.scalar "String") []) "String" rfl).1 rfl

/-- C1 counterexample: a root query field whose result is the non-null
scalar `Int!` still emits a query block, refuting the claim that non-null
scalar results are skipped. -/
theorem gql_c1_counterexample :
    get_query_block reNone gFix "count"
      (GQLField.mk (GQLType.nonNull (GQLType.scalar "Int")) []) ≠
      Except.ok none := by
  have h : get_query_block reNone gFix "count"
      (GQLField.mk (GQLType.nonNull (GQLType.scalar "Int")) []) =
      Except.ok (some (QUERY_TEMPLATE_SINGLE "count" "" "count" "" "Int")) :=
    rfl
  rw [h]
  simp [QUERY_TEMPLATE_SINGLE]

/-- C2 (corrected): a non-null-wrapped object result is unwrapped to its
object before the non-null test, so it emits the fragment-spread (or
pagination) template, not the arguments-only template; the arguments-only
template is emitted exactly when the once-unwrapped type is itself
non-null-wrapped (e.g. a list of non-null elements). -/
theorem gql_c2_nonnull_object (re : ReModule) (g : GQLGenerator) (n : String)
    (f : GQLField) (b : Bool) (tn : String) (tf : List (String × GQLField))
    (hexcl : exclude_check re g._query_exclude_pattern n = Except.ok false) :
    (f.type = GQLType.nonNull (GQLType.objectType b tn tf) →
      get_query_block re g n f =
        Except.ok (some
          (if f.args.any (fun a => a.1 == "page") then
            QUERY_TEMPLATE_PAGINATION n
              (String.intercalate "\n" (field_variables f.args)) n
              (String.intercalate "\n" (field_arguments f.args))
              (apply_fragment_name_replace g tn)
          else
            QUERY_TEMPLATE_SINGLE n
              (String.intercalate "\n" (field_variables f.args)) n
              (String.intercalate "\n" (field_arguments f.args))
              (apply_fragment_name_replace g tn)))) ∧
    (∀ u, f.type = GQLType.listOf u → isNonNull u = true →
      get_query_block re g n f =
        Except.ok (some (QUERY_TEMPLATE n
          (String.intercalate "\n" (field_variables f.args)) n
          (String.intercalate "\n" (field_arguments f.args))))) := by
  constructor
  · intro ht
    cases hpage : f.args.any (fun a => a.1 == "page") <;>
      · simp only [get_query_block, hexcl, ht, hpage]
        rfl
  · intro u ht hu
    cases u with
    | nonNull v =>
        simp only [get_query_block, hexcl, ht]
        rfl
    | scalar _ => simp [isNonNull] at hu
    | objectType _ _ _ => simp [isNonNull] at hu
    | listOf _ => simp [isNonNull] at hu

/-- C2 witness: a field returning `UserType!` with an `id` argument emits
the single-fragment template on `UserField`. -/
theorem gql_c2_witness :
    get_query_block reNone gFix "user"
      (GQLField.mk (GQLType.nonNull (GQLType.objectType true "UserType" []))
        [("id", GQLArgument.mk (GQLType.scalar "ID") none)]) =
      Except.ok (some
        (QUERY_TEMPLATE_SINGLE "user" "$id: ID" "user" "id: $id"
          "UserField")) :=
  (gql_c2_nonnull_object reNone gFix "user"
    (GQLField.mk (GQLType.nonNull (GQLType.objectType true "UserType" []))
      [("id", GQLArgument.mk (GQLType.scalar "ID") none)])
    true "UserType" [] rfl).1 rfl

/-- C2 counterexample: for a `UserType!` result the emitted block is the
fragment-spread template, which differs from the arguments-only template
the claim prescribes. -/
theorem gql_c2_counterexample :
    get_query_block reNone gFix "me"
      (GQLField.mk (GQLType.nonNull (GQLType.objectType true "UserType" []))
        []) ≠ Except.ok (some (QUERY_TEMPLATE "me" "" "me" "")) := by
  have h : get_query_block reNone gFix "me"
      (GQLField.mk (GQLType.nonNull (GQLType.objectType true "UserType" []))
        []) =
      Except.ok (some (QUERY_TEMPLATE_SINGLE "me" "" "me" "" "UserField")) :=
    rfl
  rw [h]
  intro hx
  have hs : QUERY_TEMPLATE_SINGLE "me" "" "me" "" "UserField" =
      QUERY_TEMPLATE "me" "" "me" "" := by
    injection hx with hx1
    exact Option.some.inj hx1
  exact absurd hs (by decide)

/-- C3 (corrected): the mutation builder reads the module-level global
schema, not the instance's stored snapshot — two generators sharing a
configuration produce identical mutation output whatever schemas they
store, the output being a function of the global snapshot alone. -/
theorem gql_c3_mutations_use_global (re : ReModule) (s1 s2 : Schema)
    (fnr : Option (String → String)) (fp qp mp : String) (G : Schema) :
    get_mutations re (GQLGenerator.mk s1 fnr fp qp mp) G =
      get_mutations re (GQLGenerator.mk s2 fnr fp qp mp) G := rfl

/-- C3 counterexample: one instance, one stored schema, but changing the
ambient global schema changes the mutation output — the output is not a
function of the instance's snapshot and configuration alone. -/
theorem gql_c3_counterexample :
    get_mutations reNone gFix sMutOne ≠ get_mutations reNone gFix sEmpty := by
  have h1 : get_mutations reNone gFix sMutOne =
      Except.ok
        [MUTATION_TEMPLATE "createUser" "" "createUser" "" "ok"] := rfl
  have h2 : get_mutations reNone gFix sEmpty =
      Except.ok ([] : List String) := rfl
  rw [h1, h2]
  intro hx
  exact List.cons_ne_nil _ _ (Except.ok.inj hx)

/-- C4 (corrected): `__init__` only joins the exclusion lists with `'|'`
and never compiles them, so construction always succeeds; a combined
pattern that fails to compile raises only when a generation method first
evaluates it (here: `get_fragments` on a non-empty type map). -/
theorem gql_c4_no_construction_failure (fe : List String)
    (fnr : Option (String → String)) (qe me : List String) (s : Schema) :
    GQLGenerator.init fe fnr qe me s =
      Except.ok (GQLGenerator.mk s fnr (String.intercalate "|" fe)
        (String.intercalate "|" qe) (String.intercalate "|" me)) ∧
    (∀ (re : ReModule) (hd : String × GQLType) (rest : List (String × GQLType)),
      s.type_map = hd :: rest →
      String.intercalate "|" fe ≠ "" →
      re.compileOk (String.intercalate "|" fe) = false →
      ∀ g, GQLGenerator.init fe fnr qe me s = Except.ok g →
        get_fragments re g = Except.error "re.error: invalid pattern") := by
  constructor
  · rfl
  · intro re hd rest hmap hne hcompile g hg
    have hg2 : g = GQLGenerator.mk s fnr (String.intercalate "|" fe)
        (String.intercalate "|" qe) (String.intercalate "|" me) :=
      (Except.ok.inj hg).symm
    subst hg2
    cases hd with
    | mk tname tinst =>
        simp only [get_fragments, hmap, get_fragments_aux,
          get_fragment_block, exclude_check, hne, matchM, hcompile,
          if_neg, if_false, Bool.false_eq_true]
        rfl

/-- C4 witness: with the single malformed pattern `"("` (rejected by the
regex stub `reBad`), construction still succeeds, and the failure shows up
in `get_fragments`. -/
theorem gql_c4_witness :
    reBad.compileOk (String.intercalate "|" ["("]) = false ∧
    GQLGenerator.init ["("] fragment_name_replace_default ["_debug"]
        ["_debug"] sOneType =
      Except.ok (GQLGenerator.mk sOneType fragment_name_replace_default "("
        "_debug" "_debug") ∧
    get_fragments reBad
        (GQLGenerator.mk sOneType fragment_name_replace_default "(" "_debug"
          "_debug") =
      Except.error "re.error: invalid pattern" := by
  refine ⟨rfl, ?_, ?_⟩
  · exact (gql_c4_no_construction_failure ["("] fragment_name_replace_default
      ["_debug"] ["_debug"] sOneType).1
  · exact (gql_c4_no_construction_failure ["("] fragment_name_replace_default
      ["_debug"] ["_debug"] sOneType).2 reBad
      ("UserType",
        GQLType.objectType true "UserType"
          [("id", GQLField.mk (GQLType.scalar "ID") []),
           ("name", GQLField.mk (GQLType.scalar "String") [])])
      [] rfl (by decide) rfl _ rfl

/-- C4 counterexample: the claim says construction fails for a pattern
list whose combined alternation does not compile; with list `["("]` (whose
join `"("` the stub `reBad` rejects) construction nevertheless returns a
generator. -/
theorem gql_c4_counterexample :
    reBad.compileOk (String.intercalate "|" ["("]) = false ∧
    GQLGenerator.init ["("] fragment_name_replace_default ["_debug"]
        ["_debug"] sEmpty ≠
      Except.error "re.error: invalid pattern" ∧
    ∀ msg, GQLGenerator.init ["("] fragment_name_replace_default ["_debug"]
        ["_debug"] sEmpty ≠ Except.error msg := by
  refine ⟨rfl, ?_, ?_⟩
  · intro hx
    exact Except.noConfusion hx
  · intro msg hx
    exact Except.noConfusion hx

/-- C8 (confirmed): the default naming transform sends `"UserType"` to
`"UserField"`, and a mutation payload field of object type `ErrorType`
resolves to fragment `ErrorTypeField` under every configured transform. -/
theorem gql_c8_naming :
    apply_name_replace fragment_name_replace_default "UserType" =
      "UserField" ∧
    ∀ (g : GQLGenerator) (b : Bool) (fs : List (String × GQLField)),
      mutation_field_fragment g (GQLType.objectType b "ErrorType" fs) =
        some "ErrorTypeField" := by
  refine ⟨rfl, ?_⟩
  intro g b fs
  rfl

/-- C9 (confirmed): a declared argument named `limit` of scalar type `Int`
with default value `10` renders the variable declaration
`$limit: Int = 10`. -/
theorem gql_c9_default_value (args : List (String × GQLArgument))
    (h : ("limit",
      GQLArgument.mk (GQLType.scalar "Int") (some "10")) ∈ args) :
    "$limit: Int = 10" ∈ field_variables args := by
  unfold field_variables arguments_to_name_and_scalar_type
  rw [List.map_map]
  exact List.mem_map.mpr
    ⟨("limit", GQLArgument.mk (GQLType.scalar "Int") (some "10")), h, rfl⟩

/-- C9 witness: the singleton argument list containing `limit`. -/
theorem gql_c9_witness :
    "$limit: Int = 10" ∈ field_variables
      [("limit", GQLArgument.mk (GQLType.scalar "Int") (some "10"))] :=
  gql_c9_default_value _ (List.mem_singleton.mpr rfl)

/-- Every token surviving the underscore filter does not start with an
underscore. -/
theorem keep_of_mem_selected (fnr : Option (String → String))
    (fields : List (String × GQLField)) (t : String)
    (ht : t ∈ mutation_selected_fields_core fnr fields) :
    pyStartswith t "_" = false := by
  have h := (List.mem_filter.mp ht).2
  simpa using h

/-- C7 (confirmed): an underscore-prefixed mutation payload field name
never appears in the rendered mutation: no selected token equals it and no
selected token begins with it (each dropped token is exactly the one that
carried the name). -/
theorem gql_c7_underscore_fields_hidden (g : GQLGenerator)
    (fields : List (String × GQLField)) (n t : String)
    (hn : n ∈ fields.map Prod.fst)
    (hu : pyStartswith n "_" = true)
    (ht : t ∈ mutation_selected_fields g fields) :
    t ≠ n ∧ pyStartswith t n = false := by
  have hkeep : pyStartswith t "_" = false :=
    keep_of_mem_selected g.fragment_name_replace fields t ht
  constructor
  · intro he
    rw [he] at hkeep
    exact Bool.noConfusion (hu.symm.trans hkeep)
  · cases hpt : pyStartswith t n with
    | false => rfl
    | true =>
        exfalso
        have h1 : ("_".data) <+: n.data := List.isPrefixOf_iff_prefix.mp hu
        have h2 : n.data <+: t.data := List.isPrefixOf_iff_prefix.mp hpt
        have h3 : pyStartswith t "_" = true :=
          List.isPrefixOf_iff_prefix.mpr (h1.trans h2)
        exact Bool.noConfusion (h3.symm.trans hkeep)

/-- C7 witness: in a payload with `_internal` (of type `ErrorType`) and
`ok`, the selected token `...ErrorTypeField` neither equals nor starts
with `_internal`. -/
theorem gql_c7_witness :
    "...ErrorTypeField" ≠ "_internal" ∧
    pyStartswith "...ErrorTypeField" "_internal" = false :=
  gql_c7_underscore_fields_hidden gFix payloadFix "_internal"
    "...ErrorTypeField" (by decide) (by decide) (by decide)

/-- A brace-free string contains no opening and no closing brace. -/
theorem braceFreeB_count (s : String) (h : braceFreeB s = true) :
    s.data.count '\x7b' = 0 ∧ s.data.count '\x7d' = 0 := by
  unfold braceFreeB at h
  rw [List.all_eq_true] at h
  constructor
  · rw [List.count_eq_zero]
    intro hmem
    have h2 := h _ hmem
    simp at h2
  · rw [List.count_eq_zero]
    intro hmem
    have h2 := h _ hmem
    simp at h2

theorem charCount_append (c : Char) (a b : String) :
    charCount c (a ++ b) = charCount c a + charCount c b := by
  unfold charCount
  rw [String.data_append, List.count_append]

theorem braceDelta_cons (t : String) (rest : List String) :
    braceDelta (t :: rest) =
      ((charCount '\x7b' t : Int) - (charCount '\x7d' t : Int)) +
        braceDelta rest := by
  simp [braceDelta]

theorem braceDelta_append (a b : List String) :
    braceDelta (a ++ b) = braceDelta a + braceDelta b := by
  simp [braceDelta]

/-- A fragment-spread token never starts with an underscore. -/
theorem keep_dots (fr : String) : pyStartswith ("..." ++ fr) "_" = false := by
  unfold pyStartswith
  rw [String.data_append]
  rfl

/-- Appending the opening-brace suffix does not change whether a token
starts with an underscore. -/
theorem underscore_name_brace (name : String) :
    pyStartswith (name ++ " \x7b") "_" = pyStartswith name "_" := by
  unfold pyStartswith
  rw [String.data_append]
  cases hd : name.data with
  | nil => decide
  | cons c cs => simp [List.isPrefixOf, List.cons_append]

/-- The underscore filter on a bare-name token list never increases the
brace balance. -/
theorem delta_single_nonpos (name : String) (hb : braceFreeB name = true) :
    braceDelta ([name].filter (fun t => !(pyStartswith t "_"))) ≤ 0 := by
  have hc := braceFreeB_count name hb
  cases hk : pyStartswith name "_" with
  | true => simp [List.filter, hk, braceDelta]
  | false => simp [List.filter, hk, braceDelta, charCount, hc.1, hc.2]

/-- Exact brace balance of a filtered nested-selection triple: `-1` when
the field name starts with an underscore (the opener is dropped, the
closer kept), `0` otherwise. -/
theorem delta_triple_eq (name fr : String) (hb : braceFreeB name = true)
    (hf : braceFreeB fr = true) :
    braceDelta ([name ++ " \x7b", "..." ++ fr, "\x7d"].filter
      (fun t => !(pyStartswith t "_"))) =
      (if pyStartswith name "_" = true then -1 else 0) := by
  have hcn := braceFreeB_count name hb
  have hcf := braceFreeB_count fr hf
  have h1 : charCount '\x7b' (name ++ " \x7b") = 1 := by
    unfold charCount
    rw [String.data_append, List.count_append, hcn.1]
    decide
  have h2 : charCount '\x7d' (name ++ " \x7b") = 0 := by
    unfold charCount
    rw [String.data_append, List.count_append, hcn.2]
    decide
  have h3 : charCount '\x7b' ("..." ++ fr) = 0 := by
    unfold charCount
    rw [String.data_append, List.count_append, hcf.1]
    decide
  have h4 : charCount '\x7d' ("..." ++ fr) = 0 := by
    unfold charCount
    rw [String.data_append, List.count_append, hcf.2]
    decide
  have h5 : pyStartswith "\x7d" "_" = false := rfl
  have hz1 : charCount '\x7b' "\x7d" = 0 := rfl
  have hz2 : charCount '\x7d' "\x7d" = 1 := rfl
  cases hk : pyStartswith name "_" with
  | true =>
      have hfilter : [name ++ " \x7b", "..." ++ fr, "\x7d"].filter
          (fun t => !(pyStartswith t "_")) = ["..." ++ fr, "\x7d"] := by
        simp [List.filter, underscore_name_brace, hk, keep_dots, h5]
      rw [hfilter, braceDelta_cons, braceDelta_cons, h3, h4, hz1, hz2]
      norm_num [braceDelta]
  | false =>
      have hfilter : [name ++ " \x7b", "..." ++ fr, "\x7d"].filter
          (fun t => !(pyStartswith t "_")) =
          [name ++ " \x7b", "..." ++ fr, "\x7d"] := by
        simp [List.filter, underscore_name_brace, hk, keep_dots, h5]
      rw [hfilter, braceDelta_cons, braceDelta_cons, braceDelta_cons,
        h1, h2, h3, h4, hz1, hz2]
      norm_num [braceDelta]

/-- The filtered tokens of any single payload field have non-positive
brace balance. -/
theorem field_delta_nonpos (fnr : Option (String → String)) (name : String)
    (f : GQLField) (hb : braceFreeB name = true)
    (hf : fragBraceFree fnr f = true) :
    braceDelta ((mutation_field_tokens fnr name f).filter
      (fun t => !(pyStartswith t "_"))) ≤ 0 := by
  unfold fragBraceFree at hf
  unfold mutation_field_tokens
  cases hres : mutation_field_fragment_core fnr f.type with
  | none =>
      rw [hres] at hf
      dsimp only
      exact delta_single_nonpos name hb
  | some fr =>
      rw [hres] at hf
      dsimp only at hf ⊢
      by_cases hfr : fr = ""
      · rw [if_pos hfr]
        exact delta_single_nonpos name hb
      · rw [if_neg hfr, delta_triple_eq name fr hb hf]
        cases pyStartswith name "_" <;> simp

/-- Unfolding the selected tokens over a cons cell of the payload map. -/
theorem selected_cons (fnr : Option (String → String))
    (p : String × GQLField) (rest : List (String × GQLField)) :
    mutation_selected_fields_core fnr (p :: rest) =
      (mutation_field_tokens fnr p.1 p.2).filter
        (fun t => !(pyStartswith t "_")) ++
      mutation_selected_fields_core fnr rest := by
  simp [mutation_selected_fields_core, mutation_fields_tokens,
    List.filter_append]

/-- C10 (confirmed): when an underscore-prefixed payload field resolves to
a (non-empty) fragment, the underscore filter drops only the opening
`name \x7b` token: the `...fragment` spread and the closing `\x7d` survive
in the rendered selection, whose braces are therefore left unbalanced
(strictly more closers than openers). -/
theorem gql_c10_orphan_brace (g : GQLGenerator)
    (fields : List (String × GQLField)) (n : String) (f : GQLField)
    (frag : String)
    (hmem : (n, f) ∈ fields)
    (hu : pyStartswith n "_" = true)
    (hfrag : mutation_field_fragment g f.type = some frag)
    (hne : frag ≠ "")
    (hsane : ∀ p ∈ fields, braceFreeB p.1 = true ∧
      fragBraceFree g.fragment_name_replace p.2 = true) :
    ("..." ++ frag) ∈ mutation_selected_fields g fields ∧
    "\x7d" ∈ mutation_selected_fields g fields ∧
    (n ++ " \x7b") ∉ mutation_selected_fields g fields ∧
    braceDelta (mutation_selected_fields g fields) < 0 := by
  have hfrag2 : mutation_field_fragment_core g.fragment_name_replace f.type =
      some frag := hfrag
  have htok : mutation_field_tokens g.fragment_name_replace n f =
      [n ++ " \x7b", "..." ++ frag, "\x7d"] := by
    unfold mutation_field_tokens
    rw [hfrag2]
    dsimp only
    rw [if_neg hne]
  have hmemflat : ∀ t, t ∈ mutation_field_tokens g.fragment_name_replace n f →
      t ∈ (mutation_fields_tokens g.fragment_name_replace fields).flatten := by
    intro t htmem
    rw [List.mem_flatten]
    exact ⟨mutation_field_tokens g.fragment_name_replace n f,
      List.mem_map.mpr ⟨(n, f), hmem, rfl⟩, htmem⟩
  have hm1 : ("..." ++ frag) ∈ mutation_selected_fields g fields := by
    show ("..." ++ frag) ∈
      mutation_selected_fields_core g.fragment_name_replace fields
    unfold mutation_selected_fields_core
    refine List.mem_filter.mpr ⟨hmemflat _ ?_, ?_⟩
    · rw [htok]
      simp
    · simp [keep_dots]
  have hm2 : "\x7d" ∈ mutation_selected_fields g fields := by
    show "\x7d" ∈ mutation_selected_fields_core g.fragment_name_replace fields
    unfold mutation_selected_fields_core
    refine List.mem_filter.mpr ⟨hmemflat _ ?_, ?_⟩
    · rw [htok]
      simp
    · decide
  have hm3 : (n ++ " \x7b") ∉ mutation_selected_fields g fields := by
    intro habs
    have hk := keep_of_mem_selected g.fragment_name_replace fields _ habs
    rw [underscore_name_brace, hu] at hk
    exact Bool.noConfusion hk
  refine ⟨hm1, hm2, hm3, ?_⟩
  have key : ∀ (fs : List (String × GQLField)),
      (∀ p ∈ fs, braceFreeB p.1 = true ∧
        fragBraceFree g.fragment_name_replace p.2 = true) →
      braceDelta (mutation_selected_fields_core g.fragment_name_replace fs)
        ≤ 0 ∧
      ((n, f) ∈ fs →
        braceDelta (mutation_selected_fields_core g.fragment_name_replace fs)
          < 0) := by
    intro fs
    induction fs with
    | nil =>
        intro _
        refine ⟨le_refl 0, ?_⟩
        intro hx
        exact absurd hx (List.not_mem_nil _)
    | cons p rest ih =>
        intro hall
        have hp := hall p (List.mem_cons_self _ _)
        have ihr := ih fun q hq => hall q (List.mem_cons_of_mem _ hq)
        rw [selected_cons, braceDelta_append]
        have hdp : braceDelta
            ((mutation_field_tokens g.fragment_name_replace p.1 p.2).filter
              (fun t => !(pyStartswith t "_"))) ≤ 0 :=
          field_delta_nonpos _ _ _ hp.1 hp.2
        constructor
        · exact add_nonpos hdp ihr.1
        · intro hx
          rcases List.mem_cons.mp hx with heq | hx2
          · subst heq
            have hbfr : braceFreeB frag = true := by
              have h2 : fragBraceFree g.fragment_name_replace f = true := hp.2
              unfold fragBraceFree at h2
              rw [hfrag2] at h2
              simpa using h2
            have hdp2 : braceDelta
                ((mutation_field_tokens g.fragment_name_replace
                  (n, f).1 (n, f).2).filter
                  (fun t => !(pyStartswith t "_"))) = -1 := by
              dsimp only
              rw [htok, delta_triple_eq n frag hp.1 hbfr, if_pos hu]
            rw [hdp2]
            have hr := ihr.1
            omega
          · have hr := ihr.2 hx2
            omega
  exact (key fields hsane).2 hmem

/-- Splitting an append at a distinguished space character: when neither
left part contains a space, the decomposition is unique. -/
theorem append_cons_space_inj {a₁ a₂ r₁ r₂ : List Char}
    (h₁ : ' ' ∉ a₁) (h₂ : ' ' ∉ a₂)
    (h : a₁ ++ ' ' :: r₁ = a₂ ++ ' ' :: r₂) : a₁ = a₂ ∧ r₁ = r₂ := by
  induction a₁ generalizing a₂ with
  | nil =>
      cases a₂ with
      | nil => simpa using h
      | cons c cs =>
          exfalso
          rw [List.nil_append, List.cons_append] at h
          injection h with hc _
          subst hc
          exact h₂ (List.mem_cons_self _ _)
  | cons c cs ih =>
      cases a₂ with
      | nil =>
          exfalso
          rw [List.nil_append, List.cons_append] at h
          injection h with hc _
          subst hc
          exact h₁ (List.mem_cons_self _ _)
      | cons d ds =>
          rw [List.cons_append, List.cons_append] at h
          injection h with hc ht
          subst hc
          have hrec := ih (fun hx => h₁ (List.mem_cons_of_mem _ hx))
            (fun hx => h₂ (List.mem_cons_of_mem _ hx)) ht
          exact ⟨by rw [hrec.1], hrec.2⟩

/-- Two rendered fragment blocks agree only if they are declared on the
same type name, provided fragment and type names are space-free (GraphQL
names contain no spaces). -/
theorem fragment_template_type_inj (f₁ n₁ b₁ f₂ n₂ b₂ : String)
    (hf₁ : ' ' ∉ f₁.data) (hf₂ : ' ' ∉ f₂.data)
    (hn₁ : ' ' ∉ n₁.data) (hn₂ : ' ' ∉ n₂.data)
    (h : FRAGMENT_TEMPLATE f₁ n₁ b₁ = FRAGMENT_TEMPLATE f₂ n₂ b₂) :
    n₁ = n₂ := by
  unfold FRAGMENT_TEMPLATE at h
  have hd := congrArg String.data h
  have hsp1 : (" on ").data = ' ' :: 'o' :: 'n' :: ' ' :: [] := rfl
  have hsp2 : (" \x7b\n    ").data =
      ' ' :: '\x7b' :: '\n' :: ' ' :: ' ' :: ' ' :: ' ' :: [] := rfl
  simp only [String.data_append, hsp1, hsp2, List.cons_append,
    List.append_assoc, List.nil_append] at hd
  injection hd with _ hd
  injection hd with _ hd
  injection hd with _ hd
  injection hd with _ hd
  injection hd with _ hd
  injection hd with _ hd
  injection hd with _ hd
  injection hd with _ hd
  injection hd with _ hd
  injection hd with _ hd
  obtain ⟨-, htail⟩ := append_cons_space_inj hf₁ hf₂ hd
  injection htail with _ htail
  injection htail with _ htail
  injection htail with _ htail
  exact String.ext (append_cons_space_inj hn₁ hn₂ htail).1

/-- The shape of any fragment text produced by one loop iteration. -/
theorem fragStep_shape (re : ReModule) (g : GQLGenerator)
    (p : String × GQLType) (s : String)
    (h : fragStep re g p = some s) :
    ∃ fs : List (String × GQLField),
      s = FRAGMENT_TEMPLATE (apply_fragment_name_replace g p.1) p.1
        (String.intercalate "\n" (fs.map fun q => q.1)) := by
  obtain ⟨pn, pt⟩ := p
  unfold fragStep at h
  dsimp only at h
  by_cases hb : (if g._fragment_exclude_pattern = "" then false
      else re.matchFound g._fragment_exclude_pattern pn) = true
  · rw [if_pos hb] at h
    exact Option.noConfusion h
  · rw [if_neg hb] at h
    cases pt with
    | objectType b nm fs =>
        cases b with
        | true => exact ⟨fs, (Option.some.inj h).symm⟩
        | false => exact Option.noConfusion h
    | scalar nm => exact Option.noConfusion h
    | listOf t => exact Option.noConfusion h
    | nonNull t => exact Option.noConfusion h

/-- One `get_fragments` iteration equals `fragStep` whenever the exclusion
pattern is empty or compiles. -/
theorem get_fragment_block_eq (re : ReModule) (g : GQLGenerator)
    (nm : String) (inst : GQLType)
    (hok : g._fragment_exclude_pattern = "" ∨
      re.compileOk g._fragment_exclude_pattern = true) :
    get_fragment_block re g nm inst = Except.ok (fragStep re g (nm, inst)) := by
  have hcheck : exclude_check re g._fragment_exclude_pattern nm =
      Except.ok (if g._fragment_exclude_pattern = "" then false
        else re.matchFound g._fragment_exclude_pattern nm) := by
    rcases hok with hp | hc
    · simp [exclude_check, hp]
    · by_cases hp : g._fragment_exclude_pattern = ""
      · simp [exclude_check, hp]
      · simp [exclude_check, hp, matchM, hc]
  cases hexb : (if g._fragment_exclude_pattern = "" then false
      else re.matchFound g._fragment_exclude_pattern nm) with
  | true =>
      rw [hexb] at hcheck
      simp only [get_fragment_block, hcheck, fragStep]
      rw [hexb]
      rfl
  | false =>
      rw [hexb] at hcheck
      cases inst with
      | objectType b onm fs =>
          cases b with
          | true =>
              simp only [get_fragment_block, hcheck, fragStep]
              rw [hexb]
              rfl
          | false =>
              simp only [get_fragment_block, hcheck, fragStep]
              rw [hexb]
              rfl
      | scalar nm2 =>
          simp only [get_fragment_block, hcheck, fragStep]
          rw [hexb]
          rfl
      | listOf t =>
          simp only [get_fragment_block, hcheck, fragStep]
          rw [hexb]
          rfl
      | nonNull t =>
          simp only [get_fragment_block, hcheck, fragStep]
          rw [hexb]
          rfl

/-- The whole fragment pass is the `filterMap` of `fragStep` whenever the
exclusion pattern is empty or compiles. -/
theorem get_fragments_aux_eq (re : ReModule) (g : GQLGenerator)
    (hok : g._fragment_exclude_pattern = "" ∨
      re.compileOk g._fragment_exclude_pattern = true)
    (l : List (String × GQLType)) :
    get_fragments_aux re g l = Except.ok (l.filterMap (fragStep re g)) := by
  induction l with
  | nil => rfl
  | cons p rest ih =>
      obtain ⟨nm, inst⟩ := p
      rw [List.filterMap_cons]
      simp only [get_fragments_aux, get_fragment_block_eq re g nm inst hok, ih]
      cases hstep : fragStep re g (nm, inst) with
      | none => rfl
      | some s => rfl

/-- C5 (confirmed): for every type-map entry `T` that is a plain
(graphene) object type and does not match the fragment exclusion pattern,
the fragment pass succeeds and its output contains exactly one fragment
block for `T` — named by the naming transform, declared on `T`, listing
exactly `T`'s direct field names in order.  (Type names and derived
fragment names are assumed space-free, as GraphQL names are.) -/
theorem gql_c5_fragments_exactly_once (re : ReModule) (g : GQLGenerator)
    (T oname : String) (tfields : List (String × GQLField))
    (hkeys : (g.schema.type_map.map Prod.fst).Nodup)
    (hmem : (T, GQLType.objectType true oname tfields) ∈ g.schema.type_map)
    (hexcl : exclude_check re g._fragment_exclude_pattern T = Except.ok false)
    (hspace : ∀ p ∈ g.schema.type_map, ' ' ∉ p.1.data ∧
      ' ' ∉ (apply_fragment_name_replace g p.1).data) :
    get_fragments re g =
      Except.ok (g.schema.type_map.filterMap (fragStep re g)) ∧
    (g.schema.type_map.filterMap (fragStep re g)).count
      (FRAGMENT_TEMPLATE (apply_fragment_name_replace g T) T
        (String.intercalate "\n" (tfields.map fun q => q.1))) = 1 := by
  have hparts : g._fragment_exclude_pattern = "" ∨
      (re.compileOk g._fragment_exclude_pattern = true ∧
        re.matchFound g._fragment_exclude_pattern T = false) := by
    by_cases hp : g._fragment_exclude_pattern = ""
    · exact Or.inl hp
    · right
      unfold exclude_check at hexcl
      rw [if_neg hp] at hexcl
      unfold matchM at hexcl
      by_cases hc : re.compileOk g._fragment_exclude_pattern = true
      · rw [if_pos hc] at hexcl
        exact ⟨hc, Except.ok.inj hexcl⟩
      · rw [if_neg hc] at hexcl
        exact Except.noConfusion hexcl
  have hok : g._fragment_exclude_pattern = "" ∨
      re.compileOk g._fragment_exclude_pattern = true :=
    hparts.imp id And.left
  have hexbT : (if g._fragment_exclude_pattern = "" then false
      else re.matchFound g._fragment_exclude_pattern T) = false := by
    rcases hparts with hp | hm
    · rw [if_pos hp]
    · by_cases hp : g._fragment_exclude_pattern = ""
      · rw [if_pos hp]
      · rw [if_neg hp]
        exact hm.2
  have hTsp := hspace _ hmem
  have hzero : ∀ l2 : List (String × GQLType),
      (∀ p ∈ l2, ' ' ∉ p.1.data ∧
        ' ' ∉ (apply_fragment_name_replace g p.1).data) →
      T ∉ l2.map Prod.fst →
      (l2.filterMap (fragStep re g)).count
        (FRAGMENT_TEMPLATE (apply_fragment_name_replace g T) T
          (String.intercalate "\n" (tfields.map fun q => q.1))) = 0 := by
    intro l2
    induction l2 with
    | nil =>
        intro _ _
        rfl
    | cons q rest ih =>
        intro hsp hnot
        rw [List.filterMap_cons]
        have hnotr : T ∉ rest.map Prod.fst :=
          fun hx => hnot (List.mem_cons_of_mem _ hx)
        have hTq : q.1 ≠ T := by
          intro he
          apply hnot
          rw [List.map_cons, ← he]
          exact List.mem_cons_self _ _
        have ihr := ih (fun p hp => hsp p (List.mem_cons_of_mem _ hp)) hnotr
        cases hstep : fragStep re g q with
        | none => exact ihr
        | some s =>
            obtain ⟨fs, hs⟩ := fragStep_shape re g q s hstep
            have hqsp := hsp q (List.mem_cons_self _ _)
            have hsne : s ≠ FRAGMENT_TEMPLATE
                (apply_fragment_name_replace g T) T
                (String.intercalate "\n" (tfields.map fun q2 => q2.1)) := by
              intro he
              rw [hs] at he
              exact hTq (fragment_template_type_inj _ _ _ _ _ _
                hqsp.2 hTsp.2 hqsp.1 hTsp.1 he)
            have hbeq : (s == FRAGMENT_TEMPLATE
                (apply_fragment_name_replace g T) T
                (String.intercalate "\n" (tfields.map fun q2 => q2.1)))
                = false := by
              simp [hsne]
            show (s :: rest.filterMap (fragStep re g)).count _ = 0
            rw [List.count_cons, ihr, hbeq]
            rfl
  refine ⟨get_fragments_aux_eq re g hok g.schema.type_map, ?_⟩
  have hcount : ∀ l : List (String × GQLType),
      (∀ p ∈ l, ' ' ∉ p.1.data ∧
        ' ' ∉ (apply_fragment_name_replace g p.1).data) →
      (l.map Prod.fst).Nodup →
      (T, GQLType.objectType true oname tfields) ∈ l →
      (l.filterMap (fragStep re g)).count
        (FRAGMENT_TEMPLATE (apply_fragment_name_replace g T) T
          (String.intercalate "\n" (tfields.map fun q => q.1))) = 1 := by
    intro l
    induction l with
    | nil =>
        intro _ _ hm
        exact absurd hm (List.not_mem_nil _)
    | cons q rest ih =>
        intro hsp hnd hm
        rw [List.filterMap_cons, List.map_cons] at *
        rcases List.mem_cons.mp hm with heq | hmr
        · subst heq
          have hstep : fragStep re g (T, GQLType.objectType true oname
              tfields) = some (FRAGMENT_TEMPLATE
                (apply_fragment_name_replace g T) T
                (String.intercalate "\n" (tfields.map fun q2 => q2.1))) := by
            unfold fragStep
            dsimp only
            rw [hexbT]
            rfl
          rw [hstep]
          have hnotr : T ∉ rest.map Prod.fst := (List.nodup_cons.mp hnd).1
          have hz := hzero rest
            (fun p hp => hsp p (List.mem_cons_of_mem _ hp)) hnotr
          show (FRAGMENT_TEMPLATE (apply_fragment_name_replace g T) T
              (String.intercalate "\n" (tfields.map fun q2 => q2.1)) ::
              rest.filterMap (fragStep re g)).count _ = 1
          rw [List.count_cons, hz]
          simp
        · have hTin : T ∈ rest.map Prod.fst := List.mem_map.mpr ⟨_, hmr, rfl⟩
          have hq1 : q.1 ∉ rest.map Prod.fst := (List.nodup_cons.mp hnd).1
          have hqT : q.1 ≠ T := fun he => hq1 (he ▸ hTin)
          have ihr := ih (fun p hp => hsp p (List.mem_cons_of_mem _ hp))
            (List.nodup_cons.mp hnd).2 hmr
          cases hstep : fragStep re g q with
          | none => exact ihr
          | some s =>
              obtain ⟨fs, hs⟩ := fragStep_shape re g q s hstep
              have hqsp := hsp q (List.mem_cons_self _ _)
              have hsne : s ≠ FRAGMENT_TEMPLATE
                  (apply_fragment_name_replace g T) T
                  (String.intercalate "\n" (tfields.map fun q2 => q2.1)) := by
                intro he
                rw [hs] at he
                exact hqT (fragment_template_type_inj _ _ _ _ _ _
                  hqsp.2 hTsp.2 hqsp.1 hTsp.1 he)
              have hbeq : (s == FRAGMENT_TEMPLATE
                  (apply_fragment_name_replace g T) T
                  (String.intercalate "\n" (tfields.map fun q2 => q2.1)))
                  = false := by
                simp [hsne]
              show (s :: rest.filterMap (fragStep re g)).count _ = 1
              rw [List.count_cons, ihr, hbeq]
              rfl
  exact hcount g.schema.type_map hspace hkeys hmem

/-- C5 witness: over the one-type schema `sOneType`, the fragment for
`UserType` (named `UserField`, listing `id` and `name`) appears exactly
once. -/
theorem gql_c5_witness :
    get_fragments reNone gOne =
      Except.ok (sOneType.type_map.filterMap (fragStep reNone gOne)) ∧
    (sOneType.type_map.filterMap (fragStep reNone gOne)).count
      (FRAGMENT_TEMPLATE (apply_fragment_name_replace gOne "UserType")
        "UserType"
        (String.intercalate "\n"
          (([("id", GQLField.mk (GQLType.scalar "ID") []),
             ("name", GQLField.mk (GQLType.scalar "String") [])] :
            List (String × GQLField)).map fun q => q.1))) = 1 :=
  gql_c5_fragments_exactly_once reNone gOne "UserType" "UserType"
    [("id", GQLField.mk (GQLType.scalar "ID") []),
     ("name", GQLField.mk (GQLType.scalar "String") [])]
    (by decide) (List.mem_cons_self _ _) rfl (by decide)

theorem infix_append_left {l m : List Char} (x : List Char)
    (h : l <:+: m) : l <:+: x ++ m := by
  obtain ⟨s, t, h2⟩ := h
  exact ⟨x ++ s, t, by rw [← h2]; simp [List.append_assoc]⟩

theorem infix_append_right {l m : List Char} (y : List Char)
    (h : l <:+: m) : l <:+: m ++ y := by
  obtain ⟨s, t, h2⟩ := h
  exact ⟨s, t ++ y, by rw [← h2]; simp [List.append_assoc]⟩

set_option maxRecDepth 16384 in
/-- The pagination template always carries the connection selections and
the `node` block spreading the given fragment. -/
theorem pagination_template_contains (opn vbls qn args frag : String) :
    textContains (QUERY_TEMPLATE_PAGINATION opn vbls qn args frag)
      "totalCount" ∧
    textContains (QUERY_TEMPLATE_PAGINATION opn vbls qn args frag)
      "edgeCount" ∧
    textContains (QUERY_TEMPLATE_PAGINATION opn vbls qn args frag)
      "pageInfo \x7b" ∧
    textContains (QUERY_TEMPLATE_PAGINATION opn vbls qn args frag)
      "edges \x7b" ∧
    textContains (QUERY_TEMPLATE_PAGINATION opn vbls qn args frag)
      ("node \x7b\n                ..." ++ frag ++ "\n") := by
  have hs : (QUERY_TEMPLATE_PAGINATION opn vbls qn args frag).data =
      ("\nquery ".data ++ (opn.data ++ ("(\n    ".data ++ (vbls.data ++
        ("\n) \x7b\n    ".data ++ (qn.data ++ ("(\n    ".data ++
          args.data))))))) ++
      (("\n) \x7b\n        __typename\n        totalCount\n        edgeCount\n        pageInfo \x7b\n            ...PageInfoField\n        \x7d\n        edges \x7b\n            __typename\n            cursor\n            node \x7b\n                ...").data ++
        (frag.data ++ ("\n            \x7d\n        \x7d\n    \x7d  \n\x7d\n").data)) := by
    simp [QUERY_TEMPLATE_PAGINATION, String.data_append, List.append_assoc]
  have hs2 : (QUERY_TEMPLATE_PAGINATION opn vbls qn args frag).data =
      ("\nquery ".data ++ (opn.data ++ ("(\n    ".data ++ (vbls.data ++
        ("\n) \x7b\n    ".data ++ (qn.data ++ ("(\n    ".data ++
          (args.data ++
            ("\n) \x7b\n        __typename\n        totalCount\n        edgeCount\n        pageInfo \x7b\n            ...PageInfoField\n        \x7d\n        edges \x7b\n            __typename\n            cursor\n            ").data)))))))) ++
      (("node \x7b\n                ..." ++ frag ++ "\n").data ++
        ("            \x7d\n        \x7d\n    \x7d  \n\x7d\n").data) := by
    simp [QUERY_TEMPLATE_PAGINATION, String.data_append, List.append_assoc]
  refine ⟨?_, ?_, ?_, ?_, ?_⟩
  · show textContains _ "totalCount"
    unfold textContains
    rw [hs]
    exact infix_append_left _ (infix_append_right _ (by decide))
  · show textContains _ "edgeCount"
    unfold textContains
    rw [hs]
    exact infix_append_left _ (infix_append_right _ (by decide))
  · show textContains _ "pageInfo \x7b"
    unfold textContains
    rw [hs]
    exact infix_append_left _ (infix_append_right _ (by decide))
  · show textContains _ "edges \x7b"
    unfold textContains
    rw [hs]
    exact infix_append_left _ (infix_append_right _ (by decide))
  · show textContains _ _
    unfold textContains
    rw [hs2]
    exact infix_append_left _ (infix_append_right _ (List.infix_refl _))

/-- C6 (confirmed): a root query field with a `page` argument and a
(graphene) object result emits the pagination template: the block carries
`totalCount`, `edgeCount`, `pageInfo`, `edges`, and a
`node \x7b ...fragment \x7d` selection whose fragment name is derived from
the result type via the naming transform. -/
theorem gql_c6_pagination (re : ReModule) (g : GQLGenerator) (n : String)
    (f : GQLField) (tn : String) (tf : List (String × GQLField))
    (hexcl : exclude_check re g._query_exclude_pattern n = Except.ok false)
    (htype : f.type = GQLType.objectType true tn tf)
    (hpage : f.args.any (fun a => a.1 == "page") = true) :
    get_query_block re g n f =
      Except.ok (some (QUERY_TEMPLATE_PAGINATION n
        (String.intercalate "\n" (field_variables f.args)) n
        (String.intercalate "\n" (field_arguments f.args))
        (apply_fragment_name_replace g tn))) ∧
    textContains (QUERY_TEMPLATE_PAGINATION n
      (String.intercalate "\n" (field_variables f.args)) n
      (String.intercalate "\n" (field_arguments f.args))
      (apply_fragment_name_replace g tn)) "totalCount" ∧
    textContains (QUERY_TEMPLATE_PAGINATION n
      (String.intercalate "\n" (field_variables f.args)) n
      (String.intercalate "\n" (field_arguments f.args))
      (apply_fragment_name_replace g tn)) "edgeCount" ∧
    textContains (QUERY_TEMPLATE_PAGINATION n
      (String.intercalate "\n" (field_variables f.args)) n
      (String.intercalate "\n" (field_arguments f.args))
      (apply_fragment_name_replace g tn)) "pageInfo \x7b" ∧
    textContains (QUERY_TEMPLATE_PAGINATION n
      (String.intercalate "\n" (field_variables f.args)) n
      (String.intercalate "\n" (field_arguments f.args))
      (apply_fragment_name_replace g tn)) "edges \x7b" ∧
    textContains (QUERY_TEMPLATE_PAGINATION n
      (String.intercalate "\n" (field_variables f.args)) n
      (String.intercalate "\n" (field_arguments f.args))
      (apply_fragment_name_replace g tn))
      ("node \x7b\n                ..." ++
        apply_fragment_name_replace g tn ++ "\n") := by
  have hc := pagination_template_contains n
    (String.intercalate "\n" (field_variables f.args)) n
    (String.intercalate "\n" (field_arguments f.args))
    (apply_fragment_name_replace g tn)
  refine ⟨?_, hc.1, hc.2.1, hc.2.2.1, hc.2.2.2.1, hc.2.2.2.2⟩
  simp only [get_query_block, hexcl, htype, hpage]
  rfl

/-- C6 witness: a `users` field with `page` and `size` arguments returning
`UserType` emits the connection-shaped query on fragment `UserField`. -/
theorem gql_c6_witness :
    get_query_block reNone gFix "users"
      (GQLField.mk (GQLType.objectType true "UserType" [])
        [("page", GQLArgument.mk (GQLType.scalar "Int") none),
         ("size", GQLArgument.mk (GQLType.scalar "Int") none)]) =
      Except.ok (some (QUERY_TEMPLATE_PAGINATION "users"
        "$page: Int\n$size: Int" "users" "page: $page\nsize: $size"
        "UserField")) ∧
    textContains (QUERY_TEMPLATE_PAGINATION "users"
      "$page: Int\n$size: Int" "users" "page: $page\nsize: $size"
      "UserField") "totalCount" :=
  have h := gql_c6_pagination reNone gFix "users"
    (GQLField.mk (GQLType.objectType true "UserType" [])
      [("page", GQLArgument.mk (GQLType.scalar "Int") none),
       ("size", GQLArgument.mk (GQLType.scalar "Int") none)])
    "UserType" [] rfl rfl (by decide)
  ⟨h.1, h.2.1⟩

/-- C10 witness: in the payload `payloadFix`, the `_internal` field of
type `ErrorType` leaves an orphaned spread and closing brace. -/
theorem gql_c10_witness :
    ("..." ++ "ErrorTypeField") ∈ mutation_selected_fields gFix payloadFix ∧
    "\x7d" ∈ mutation_selected_fields gFix payloadFix ∧
    ("_internal" ++ " \x7b") ∉ mutation_selected_fields gFix payloadFix ∧
    braceDelta (mutation_selected_fields gFix payloadFix) < 0 :=
  gql_c10_orphan_brace gFix payloadFix "_internal"
    (GQLField.mk (GQLType.objectType true "ErrorType" []) [])
    "ErrorTypeField" (List.mem_cons_self _ _) (by decide) rfl (by decide)
    (by decide)

end GqlGen
